import Mathlib

/-!
Verification development for the AutoTribune pipeline.

Shallow embedding of:
- `src/supabase/functions/publish-article/index.ts` (the publish endpoint,
  its `generateSlug` helper, and the `articles` table with its unique slug
  index from the SQL migrations), and
- `src/ProcessNews/processNews.js` (the scraping / rewriting / publishing
  pipeline: `slugify`, `scrapeNDTV`, `getFullArticle`, `rewriteWithGemini`,
  `rewriteTitle`, `generateImage`, `uploadToDB`, and `main`).

External effects (HTTP responses, the AI endpoints, object storage) are
passed in as explicit parameters, so every definition is executable.
-/

namespace AutoTribune

/-! ## Generic string helpers (JS string operations on `List Char`) -/

/-- Lower-case ASCII letter or digit, i.e. the class `[a-z0-9]`. -/
def isLowerAlnum (c : Char) : Bool :=
  (('a' ≤ c) && (c ≤ 'z')) || (('0' ≤ c) && (c ≤ '9'))

/-- Whitespace as matched by the JS regex class `\s` (ASCII part). -/
def isSpaceJS (c : Char) : Bool :=
  c = ' ' || c = '\t' || c = '\n' || c = '\r' || c = '\x0b' || c = '\x0c'

/-- `startsWithL p l`: `p` is a prefix of `l` (JS `String.startsWith`). -/
def startsWithL : List Char → List Char → Bool
  | [], _ => true
  | _ :: _, [] => false
  | a :: as, b :: bs => (a = b) && startsWithL as bs

/-- JS `s.startsWith(p)` on strings. -/
def strStartsWith (p s : String) : Bool :=
  startsWithL p.data s.data

/-- `subAt needle hay`: `needle` occurs as a contiguous sublist of `hay`
(JS `String.includes`). -/
def subAt (needle : List Char) : List Char → Bool
  | [] => startsWithL needle []
  | c :: cs => startsWithL needle (c :: cs) || subAt needle cs

/-- JS `s.includes(sub)`. -/
def strIncludes (sub s : String) : Bool :=
  subAt sub.data s.data

theorem dropWhile_length_le (p : Char → Bool) :
    ∀ l : List Char, (l.dropWhile p).length ≤ l.length := by
  intro l
  induction l with
  | nil => simp
  | cons c cs ih =>
    by_cases h : p c
    · simp only [List.dropWhile_cons, h, if_true, List.length_cons]
      omega
    · simp [List.dropWhile_cons, h]

/-- Replace every maximal run of characters satisfying `p` by the single
character `rep` (the JS regex replaces a nonempty run with a one-character
string). -/
def squashRuns (p : Char → Bool) (rep : Char) : List Char → List Char
  | [] => []
  | [c] => if p c then [rep] else [c]
  | c :: d :: cs =>
    if p c then
      if p d then squashRuns p rep (d :: cs)
      else rep :: squashRuns p rep (d :: cs)
    else c :: squashRuns p rep (d :: cs)

/-- Drop characters satisfying `p` from both ends (JS `trim` uses
whitespace; the processNews `slugify` trims hyphens via a regex). -/
def trimWhile (p : Char → Bool) (l : List Char) : List Char :=
  ((l.dropWhile p).reverse.dropWhile p).reverse

/-- The decimal digit character for `d < 10`. -/
def digitChar (d : Nat) : Char := Char.ofNat (48 + d)

/-- Fuel-indexed decimal printer; the fuel only bounds the recursion and
never runs out when it exceeds the number. -/
def natDigitsGo : Nat → Nat → List Char
  | 0, _ => []
  | fuel + 1, n =>
    if n < 10 then [digitChar n]
    else natDigitsGo fuel (n / 10) ++ [digitChar (n % 10)]

/-- Decimal digits of a natural number, most significant first
(the characters JS produces when interpolating a number into a string). -/
def natDigits (n : Nat) : List Char := natDigitsGo (n + 1) n

/-- Decimal representation of a natural number as a string
(JS template literal `${n}` for the millisecond timestamp). -/
def natToString (n : Nat) : String := String.mk (natDigits n)

/-! ## Publish endpoint (`src/supabase/functions/publish-article/index.ts`) -/

/-- The normalization step of `generateSlug` in the edge function: lower-case
the title, delete every character that is not in the class "a-z, 0-9,
whitespace, hyphen", replace each whitespace run by a single hyphen, collapse
hyphen runs to a single hyphen, then trim surrounding whitespace. -/
def normalizeTitle (title : String) : String :=
  String.mk (trimWhile isSpaceJS
    (squashRuns (fun c => c = '-') '-'
      (squashRuns isSpaceJS '-'
        ((title.data.map Char.toLower).filter
          (fun c => isLowerAlnum c || isSpaceJS c || c = '-')))))

/-- `const slug = ${baseSlug}-${Date.now()}`: the slug persisted by the
publish endpoint, as a function of the title and the millisecond
timestamp. -/
def generateSlug (title : String) (nowMs : Nat) : String :=
  normalizeTitle title ++ "-" ++ natToString nowMs

/-- A parsed JSON request body for the publish endpoint: each field may be
absent (`none`). -/
structure ReqBody where
  title : Option String
  text : Option String
  image_link : Option String
deriving Repr, DecidableEq

/-- A row of the `articles` table (the fields the endpoint writes). -/
structure DBRecord where
  title : String
  content : String
  image_url : Option String
  slug : String
deriving Repr, DecidableEq

/-- JS falsiness of an optional string: absent or empty. -/
def jsFalsy (x : Option String) : Bool :=
  match x with
  | none => true
  | some s => s = ""

/-- JS `image_link || null`: an empty string collapses to null. -/
def jsOrNull (x : Option String) : Option String :=
  match x with
  | some s => if s = "" then none else some s
  | none => none

/-- Insert into `articles`: the migration creates
`CREATE UNIQUE INDEX idx_articles_slug ON public.articles(slug)`, so an
insert whose slug already exists fails and persists nothing. -/
def insertArticle (db : List DBRecord) (r : DBRecord) : Option (List DBRecord) :=
  if db.any (fun x => x.slug = r.slug) then none else some (db ++ [r])

/-- The observable outcome of one call to the publish endpoint: HTTP
status, the `success` flag, the returned article (on 200), and the
database state afterwards. -/
structure HandlerResult where
  status : Nat
  success : Bool
  article : Option DBRecord
  db : List DBRecord
deriving Repr, DecidableEq

/-- The record the endpoint inserts for a valid request. -/
def mkRecord (t x : String) (il : Option String) (nowMs : Nat) : DBRecord :=
  ⟨t, x, jsOrNull il, generateSlug t nowMs⟩

/-- The `Deno.serve` handler of the publish endpoint (the non-OPTIONS
path), over a parsed body: 400 when `!title || !text`, 500 when the
insert fails, otherwise 200 with `success: true` and the inserted row. -/
def publishHandler (db : List DBRecord) (body : ReqBody) (nowMs : Nat) :
    HandlerResult :=
  match body.title, body.text with
  | some t, some x =>
    if t = "" || x = "" then ⟨400, false, none, db⟩
    else
      let r := mkRecord t x body.image_link nowMs
      match insertArticle db r with
      | none => ⟨500, false, none, db⟩
      | some db2 => ⟨200, true, some r, db2⟩
  | _, _ => ⟨400, false, none, db⟩

/-- No two rows of the table share a slug. -/
def slugsDistinct (db : List DBRecord) : Prop :=
  db.Pairwise (fun a b => a.slug ≠ b.slug)

/-! ## processNews.js: `slugify` -/

/-- `slugify` from processNews.js: lower-case, replace every run of
characters outside a-z0-9 by a hyphen, then strip leading and trailing
hyphens; a falsy input is caught and yields the literal default slug. -/
def slugifyJS (text : String) : String :=
  if text = "" then "default-slug"
  else
    String.mk (trimWhile (fun c => c = '-')
      (squashRuns (fun c => !isLowerAlnum c) '-' (text.data.map Char.toLower)))

/-! ## processNews.js: `scrapeNDTV` (fallback HTML scraper) -/

/-- An element matched by one of the listing-page selectors, after the
title / href extraction chains: the extracted title text (possibly empty)
and the extracted href (absent when no anchor has one). -/
structure RawEl where
  title : String
  link : Option String
deriving Repr, DecidableEq

/-- An article stub `{title, link}`. -/
structure Article where
  title : String
  link : String
deriving Repr, DecidableEq

/-- The link fixup inside `scrapeNDTV`: a truthy link that does not start
with "http" gets the `https://www.ndtv.com` prefix. -/
def ndtvLink (l : String) : String :=
  if l ≠ "" && !strStartsWith "http" l then "https://www.ndtv.com" ++ l else l

/-- Per-element processing inside `scrapeNDTV`: after the link fixup, the
element is kept only when the title is truthy and longer than 10
characters and the link is truthy. -/
def processEl (e : RawEl) : Option Article :=
  match e.link with
  | none => none
  | some l =>
    if e.title ≠ "" && ndtvLink l ≠ "" && 10 < e.title.length then
      some ⟨e.title, ndtvLink l⟩
    else none

/-- The selector loop of `scrapeNDTV`: `page` holds, in priority order, the
elements each selector matches; the first selector producing any articles
wins and its articles are truncated to 5; if none produces any, the result
is empty. -/
def scrapeNDTV (page : List (List RawEl)) : List Article :=
  match page with
  | [] => []
  | sel :: rest =>
    let articles := sel.filterMap processEl
    if articles.isEmpty then scrapeNDTV rest else articles.take 5

/-! ## processNews.js: `getFullArticle` (content extractor) -/

/-- A text block qualifies when it is longer than 50 characters and contains
neither the copyright sign nor the phrase "All rights reserved". -/
def qualifies (s : String) : Bool :=
  50 < s.length && !strIncludes "©" s && !strIncludes "All rights reserved" s

/-- The selector loop of `getFullArticle`: `paragraphs` is shared across
selectors; each selector appends its qualifying blocks, and the loop stops
as soon as the accumulated list has more than 3 entries. -/
def extractLoop : List (List String) → List String → List String
  | [], acc => acc
  | sel :: rest, acc =>
    let acc2 := acc ++ sel.filter qualifies
    if 3 < acc2.length then acc2 else extractLoop rest acc2

/-- `paragraphs.slice(0, 8).join("\n\n")`. -/
def joinParas : List String → String
  | [] => ""
  | [p] => p
  | p :: q :: ps => p ++ "\n\n" ++ joinParas (q :: ps)

/-- `getFullArticle` over a fetched page, given per-selector text blocks
(`none` models a fetch failure, whose catch returns the empty string);
content under 100 characters throws, which the catch also turns into the
empty string. -/
def getFullArticle (page : Option (List (List String))) : String :=
  match page with
  | none => ""
  | some sels =>
    let paragraphs := extractLoop sels []
    let content := joinParas (paragraphs.take 8)
    if content.length < 100 then "" else content

/-! ## processNews.js: `rewriteWithGemini` and `rewriteTitle` -/

/-- `rewriteWithGemini`: `key` is the global `GEMINI_API_KEY`; `resp` is
the text at `.candidates[0].content.parts[0].text` of the API response,
`none` when the request failed (timeout, 429, 403, network) or the
response structure is invalid — every such case throws. -/
def rewriteWithGemini (key : Option String) (content : String)
    (resp : Option String) : Except String String :=
  if jsFalsy key then .error "Gemini API key not available - content rewriting required"
  else if content = "" || content.length < 50 then
    .error "Content too short for rewriting"
  else
    match resp with
    | none => .error "Invalid response structure from Gemini API"
    | some t =>
      if t.length < 100 then .error "Generated content too short" else .ok t

/-- Number of API requests one call to `rewriteWithGemini` performs: the
single `axios.post` is reached only after the key and length guards. -/
def rewriteRequestCount (key : Option String) (content : String) : Nat :=
  if jsFalsy key then 0
  else if content = "" || content.length < 50 then 0
  else 1

/-- `trim()` on a string (JS whitespace trim). -/
def strTrim (s : String) : String := String.mk (trimWhile isSpaceJS s.data)

/-- `rewriteTitle`: same request shape; the returned title is trimmed and
must be at least 5 characters. -/
def rewriteTitle (key : Option String) (content : String)
    (resp : Option String) : Except String String :=
  if jsFalsy key then .error "Gemini API key not available - title rewriting required"
  else if content = "" || content.length < 5 then
    .error "Title content too short"
  else
    match resp with
    | none => .error "Invalid title rewrite response"
    | some t =>
      let newTitle := strTrim t
      if newTitle.length < 5 then .error "Generated title too short" else .ok newTitle

/-! ## processNews.js: `generateImage` -/

/-- One part of the image-generation response: either a text part or an
inline-data part whose `data` field may be absent. -/
inductive ImgPart where
  | textPart : String → ImgPart
  | inlinePart : Option String → ImgPart
deriving Repr, DecidableEq

/-- The loop over response parts acts on the first `inlineData` part. -/
def findInline : List ImgPart → Option (Option String)
  | [] => none
  | .textPart _ :: rest => findInline rest
  | .inlinePart d :: _ => some d

/-- External outcomes `generateImage` depends on: the response parts
(`none` models a missing `candidates[0].content.parts`), the storage
upload (`some msg` is a failed upload), and the signed URL (`none` models
a failed `createSignedUrl` or an absent `signedUrl`). -/
structure ImgEnv where
  parts : Option (List ImgPart)
  uploadError : Option String
  signedUrl : Option String
deriving Repr, DecidableEq

/-- `generateImage`: guards on the key, summary length and image name; then
the first inline-data part is decoded, uploaded, and a signed URL is
returned; every failure throws (re-thrown by the outer catch). -/
def generateImage (key : Option String) (summary : String) (imageName : String)
    (env : ImgEnv) : Except String String :=
  if jsFalsy key then .error "Gemini API key not available - image generation required"
  else if summary = "" || summary.length < 50 then
    .error "Summary too short for image generation"
  else if imageName = "" then .error "Image name is required"
  else
    match env.parts with
    | none => .error "Invalid image generation response"
    | some ps =>
      match findInline ps with
      | none => .error "No image was generated in the response"
      | some none => .error "No image data received"
      | some (some _) =>
        match env.uploadError with
        | some m => .error ("Supabase upload failed: " ++ m)
        | none =>
          match env.signedUrl with
          | none => .error "Signed URL creation failed"
          | some u => .ok u

/-! ## processNews.js: `uploadToDB` and the main loop -/

/-- The `{text, title, image}` aggregate posted to the publish endpoint. -/
structure Output where
  title : String
  text : String
  image : String
deriving Repr, DecidableEq

/-- `uploadToDB`: throws when a required field is falsy, when the HTTP call
fails (`resp = none`), or when the response carries no `success: true`. -/
def uploadToDB (out : Output) (resp : Option Bool) : Except String Unit :=
  if out.title = "" || out.text = "" then
    .error "Missing required fields for database upload"
  else
    match resp with
    | none => .error "Database upload error"
    | some s =>
      if s then .ok () else .error "Database upload failed - no success confirmation"

/-- The external world one loop iteration of `main` interacts with: the
stub's title, the article page, the two text-model responses, the
image-generation environment, and the publish response. -/
structure ArticleEnv where
  title : String
  page : Option (List (List String))
  rewriteResp : Option String
  titleResp : Option String
  img : ImgEnv
  publishResp : Option Bool
deriving Repr, DecidableEq

/-- What one iteration of the per-article loop did: the argument of each
call it made (`none` when the stage was never reached) and whether the
article counted as successful. -/
structure Trace where
  rewriteArg : Option String
  titleArg : Option String
  imageArg : Option (String × String)
  publishArg : Option Output
  success : Bool
deriving Repr, DecidableEq

/-- The body of the per-article loop in `main`: extraction shorter than 100
characters skips the article; then the three AI stages run in order inside
one try block; the publish call runs only after all three returned; any
thrown error is caught by the per-article catch and only marks the article
failed. -/
def processArticle (key : Option String) (env : ArticleEnv) : Trace :=
  let content := getFullArticle env.page
  if content = "" || content.length < 100 then
    ⟨none, none, none, none, false⟩
  else
    match rewriteWithGemini key content env.rewriteResp with
    | .error _ => ⟨some content, none, none, none, false⟩
    | .ok summary =>
      match rewriteTitle key env.title env.titleResp with
      | .error _ => ⟨some content, some env.title, none, none, false⟩
      | .ok newTitle =>
        match generateImage key summary (slugifyJS newTitle) env.img with
        | .error _ =>
          ⟨some content, some env.title, some (summary, slugifyJS newTitle), none, false⟩
        | .ok url =>
          let out : Output := ⟨newTitle, summary, url⟩
          match uploadToDB out env.publishResp with
          | .error _ =>
            ⟨some content, some env.title, some (summary, slugifyJS newTitle), some out, false⟩
          | .ok _ =>
            ⟨some content, some env.title, some (summary, slugifyJS newTitle), some out, true⟩

/-- The `for` loop of `main` over the fetched articles: returns the
success and failure counters and the per-article traces, in order. -/
def mainLoop (key : Option String) : List ArticleEnv → Nat × Nat × List Trace
  | [] => (0, 0, [])
  | e :: es =>
    let t := processArticle key e
    let r := mainLoop key es
    (if t.success then r.1 + 1 else r.1,
     if t.success then r.2.1 else r.2.1 + 1,
     t :: r.2.2)

/-- `main`: RSS first, the HTML scraper only when RSS yielded nothing; no
articles from either source throws (caught by the outer catch, which exits
with code 1); a run with zero successful articles also exits with code 1;
otherwise the process ends normally (exit code 0). -/
def mainModel (key : Option String) (rss scraped : List ArticleEnv) :
    Nat × (Nat × Nat × List Trace) :=
  let articles := if rss.isEmpty then scraped else rss
  if articles.isEmpty then (1, (0, 0, []))
  else
    let r := mainLoop key articles
    if r.1 = 0 then (1, r) else (0, r)

/-! ## Helper lemmas -/

theorem mem_of_mem_dropWhile (p : Char → Bool) :
    ∀ (l : List Char) (c : Char), c ∈ l.dropWhile p → c ∈ l := by
  intro l
  induction l with
  | nil => simp
  | cons a as ih =>
    intro c hc
    rw [List.dropWhile_cons] at hc
    by_cases h : p a
    · simp only [h, if_true] at hc
      exact List.mem_cons_of_mem _ (ih c hc)
    · simpa [h] using hc

theorem mem_squashRuns (p : Char → Bool) (rep : Char) :
    ∀ (l : List Char) (c : Char),
      c ∈ squashRuns p rep l → c = rep ∨ (c ∈ l ∧ p c = false) := by
  have key : ∀ (n : Nat) (l : List Char), l.length = n →
      ∀ c, c ∈ squashRuns p rep l → c = rep ∨ (c ∈ l ∧ p c = false) := by
    intro n
    induction n using Nat.strong_induction_on with
    | _ n ih =>
      intro l hn c hc
      match l with
      | [] => simp [squashRuns] at hc
      | [a] =>
        rw [squashRuns] at hc
        cases hpa : p a with
        | true =>
          simp [hpa] at hc
          exact Or.inl hc
        | false =>
          simp [hpa] at hc
          exact Or.inr ⟨by simp [hc], hc ▸ hpa⟩
      | a :: d :: cs =>
        rw [squashRuns] at hc
        have hlen : (d :: cs).length < n := by
          simp only [List.length_cons] at hn ⊢
          omega
        cases hpa : p a with
        | true =>
          simp only [hpa, if_true] at hc
          cases hpd : p d with
          | true =>
            simp only [hpd, if_true] at hc
            rcases ih _ hlen _ rfl c hc with h1 | ⟨h2, h3⟩
            · exact Or.inl h1
            · exact Or.inr ⟨List.mem_cons_of_mem _ h2, h3⟩
          | false =>
            simp only [hpd, Bool.false_eq_true, if_false, List.mem_cons] at hc
            rcases hc with rfl | hc
            · exact Or.inl rfl
            · rcases ih _ hlen _ rfl c hc with h1 | ⟨h2, h3⟩
              · exact Or.inl h1
              · exact Or.inr ⟨List.mem_cons_of_mem _ h2, h3⟩
        | false =>
          simp only [hpa, Bool.false_eq_true, if_false, List.mem_cons] at hc
          rcases hc with rfl | hc
          · exact Or.inr ⟨List.mem_cons_self _ _, hpa⟩
          · rcases ih _ hlen _ rfl c hc with h1 | ⟨h2, h3⟩
            · exact Or.inl h1
            · exact Or.inr ⟨List.mem_cons_of_mem _ h2, h3⟩
  intro l c hc
  exact key l.length l rfl c hc

theorem mem_trimWhile (p : Char → Bool) (l : List Char) (c : Char)
    (h : c ∈ trimWhile p l) : c ∈ l := by
  unfold trimWhile at h
  rw [List.mem_reverse] at h
  have h2 := mem_of_mem_dropWhile p _ _ h
  rw [List.mem_reverse] at h2
  exact mem_of_mem_dropWhile p _ _ h2

theorem digitChar_isDigit (d : Nat) (h : d < 10) : (digitChar d).isDigit = true := by
  interval_cases d <;> decide

theorem natDigitsGo_getLast : ∀ (fuel n : Nat), n < fuel →
    ∃ d, d < 10 ∧ (natDigitsGo fuel n).getLast? = some (digitChar d) := by
  intro fuel
  induction fuel with
  | zero => intro n hn; omega
  | succ f ih =>
    intro n _
    rw [natDigitsGo]
    by_cases h : n < 10
    · exact ⟨n, h, by rw [if_pos h]; rfl⟩
    · refine ⟨n % 10, by omega, ?_⟩
      rw [if_neg h]
      exact List.getLast?_concat _

theorem natDigits_getLast (n : Nat) :
    ∃ d, d < 10 ∧ (natDigits n).getLast? = some (digitChar d) :=
  natDigitsGo_getLast (n + 1) n (by omega)

theorem natDigits_ne_nil (n : Nat) : natDigits n ≠ [] := by
  rw [natDigits, natDigitsGo]
  by_cases h : n < 10
  · rw [if_pos h]; simp
  · rw [if_neg h]; simp

theorem string_eq_empty_of_data (s : String) (h : s.data = []) : s = "" := by
  cases s; simp_all

theorem string_length_eq_data (s : String) : s.length = s.data.length := rfl

theorem getLast?_append_right (l1 l2 : List Char) (c : Char)
    (h : l2.getLast? = some c) : (l1 ++ l2).getLast? = some c := by
  rw [List.getLast?_append, h]
  rfl

/-- A nonempty fixed-up link starts with "http". -/
theorem ndtvLink_starts (l : String) (h : ndtvLink l ≠ "") :
    strStartsWith "http" (ndtvLink l) = true := by
  unfold ndtvLink at h ⊢
  cases hc : (l ≠ "" && !strStartsWith "http" l) with
  | true =>
    simp only [hc, if_true]
    show startsWithL "http".data ("https://www.ndtv.com" ++ l).data = true
    rw [String.data_append]
    rfl
  | false =>
    simp only [hc, Bool.false_eq_true, if_false] at h ⊢
    cases hs : strStartsWith "http" l with
    | true => rfl
    | false =>
      exfalso
      have ht : (l ≠ "" && !strStartsWith "http" l) = true := by simp [hs, h]
      rw [hc] at ht
      exact absurd ht (by simp)

/-- Any article an element of `scrapeNDTV`'s selector loop produces has a
title longer than 10 characters and a link beginning with "http". -/
theorem processEl_sound (e : RawEl) (a : Article) (h : processEl e = some a) :
    10 < a.title.length ∧ strStartsWith "http" a.link = true := by
  obtain ⟨t, link⟩ := e
  cases link with
  | none => simp [processEl] at h
  | some l =>
    simp only [processEl] at h
    split at h
    · next hpush =>
        have ha : Article.mk t (ndtvLink l) = a := (Option.some.injEq _ _).mp h
        subst ha
        simp only [Bool.and_eq_true, decide_eq_true_eq, ne_eq] at hpush
        exact ⟨hpush.2, ndtvLink_starts l hpush.1.2⟩
    · exact absurd h (by simp)

/-- The qualifying blocks the first `k` selectors contribute, in order. -/
def accBlocks : List (List String) → Nat → List String
  | _, 0 => []
  | [], _ + 1 => []
  | sel :: rest, k + 1 => sel.filter qualifies ++ accBlocks rest k

theorem extractLoop_spec :
    ∀ (sels : List (List String)) (acc : List String), acc.length ≤ 3 →
      ∃ k, k ≤ sels.length ∧
        extractLoop sels acc = acc ++ accBlocks sels k ∧
        (∀ j, j < k → (acc ++ accBlocks sels j).length ≤ 3) ∧
        (k < sels.length → 3 < (acc ++ accBlocks sels k).length) := by
  intro sels
  induction sels with
  | nil =>
    intro acc _
    exact ⟨0, Nat.le_refl _, by simp [extractLoop, accBlocks],
      by intro j hj; omega, by intro h; simp at h⟩
  | cons sel rest ih =>
    intro acc hacc
    by_cases h2 : 3 < (acc ++ sel.filter qualifies).length
    · refine ⟨1, by simp, ?_, ?_, ?_⟩
      · rw [extractLoop]
        simp only [h2, if_true]
        simp [accBlocks]
      · intro j hj
        have : j = 0 := by omega
        subst this
        simpa [accBlocks] using hacc
      · intro _
        simpa [accBlocks] using h2
    · have hle : (acc ++ sel.filter qualifies).length ≤ 3 := by omega
      obtain ⟨k, hk, heq, hbound, hstop⟩ := ih (acc ++ sel.filter qualifies) hle
      refine ⟨k + 1, by simpa using Nat.succ_le_succ hk, ?_, ?_, ?_⟩
      · rw [extractLoop]
        simp only [h2, if_false]
        rw [heq, accBlocks, List.append_assoc]
      · intro j hj
        cases j with
        | zero => simpa [accBlocks] using hacc
        | succ j' =>
          have := hbound j' (by omega)
          rw [accBlocks, ← List.append_assoc]
          exact this
      · intro hlt
        have := hstop (by simpa using Nat.lt_of_succ_lt_succ hlt)
        rw [accBlocks, ← List.append_assoc]
        exact this

/-- The traces of the main loop are the per-article results, in order. -/
theorem mainLoop_traces (key : Option String) :
    ∀ envs : List ArticleEnv,
      (mainLoop key envs).2.2 = envs.map (processArticle key) := by
  intro envs
  induction envs with
  | nil => rfl
  | cons e es ih => simp [mainLoop, ih]

/-- When the title has no alphanumeric characters, every character of the
normalized title is a hyphen. -/
theorem normalizeTitle_all_hyphen (title : String)
    (h : ∀ ch ∈ title.data, isLowerAlnum (Char.toLower ch) = false) :
    ∀ c ∈ (normalizeTitle title).data, c = '-' := by
  intro c hc
  have hc2 : c ∈ trimWhile isSpaceJS
      (squashRuns (fun c => c = '-') '-'
        (squashRuns isSpaceJS '-'
          ((title.data.map Char.toLower).filter
            (fun c => isLowerAlnum c || isSpaceJS c || c = '-')))) := hc
  have hc3 := mem_trimWhile _ _ _ hc2
  rcases mem_squashRuns _ _ _ _ hc3 with h1 | ⟨h4, h5⟩
  · exact h1
  · exfalso
    rcases mem_squashRuns _ _ _ _ h4 with h6 | ⟨h7, h8⟩
    · simp [h6] at h5
    · have h9 := List.mem_filter.mp h7
      obtain ⟨ch, hch, hceq⟩ := List.mem_map.mp h9.1
      have h10 : isLowerAlnum c = false := by rw [← hceq]; exact h ch hch
      have h11 := h9.2
      rw [h10, h8] at h11
      simp at h11
      simp [h11] at h5

/-! ## Concrete test data used by witnesses and counterexamples -/

def blkA : String := "aaaaaaaaaaaaaaaaaaaaaaaaaaaaaaaaaaaaaaaaaaaaaaaaaaaaaaaaaaaa"

def blkB : String := "bbbbbbbbbbbbbbbbbbbbbbbbbbbbbbbbbbbbbbbbbbbbbbbbbbbbbbbbbbbb"

def blkC : String := "cccccccccccccccccccccccccccccccccccccccccccccccccccccccccccc"

def blkD : String := "dddddddddddddddddddddddddddddddddddddddddddddddddddddddddddd"

def blkE : String := "eeeeeeeeeeeeeeeeeeeeeeeeeeeeeeeeeeeeeeeeeeeeeeeeeeeeeeeeeeee"

def blkF : String := "ffffffffffffffffffffffffffffffffffffffffffffffffffffffffffff"

def blkG : String := "gggggggggggggggggggggggggggggggggggggggggggggggggggggggggggg"

/-- A page whose first selector matches 3 qualifying blocks and whose
second selector matches 4. -/
def page0 : List (List String) := [[blkA, blkB, blkC], [blkD, blkE, blkF, blkG]]

/-- An article environment whose page extracts successfully but whose AI
calls all fail (no API key configured). -/
def envC5 : ArticleEnv :=
  ⟨"Some Original Title", some page0, none, none, ⟨none, none, none⟩, none⟩

/-! ## Claims -/

/-- C3: every per-article trace is a function of that article's own
environment alone (the per-article catch confines a Rewriter, Image
Generator, or Publisher failure of article `i` to its own iteration), so
the processing of article `i+1` is unchanged whatever happens at
article `i`. -/
theorem per_article_isolation (key : Option String) :
    (∀ envs : List ArticleEnv,
      (mainLoop key envs).2.2 = envs.map (processArticle key)) ∧
    (∀ (envs : List ArticleEnv) (i : Nat) (a b : ArticleEnv),
      ((mainLoop key (envs.set i a)).2.2)[i + 1]? =
        ((mainLoop key (envs.set i b)).2.2)[i + 1]?) := by
  refine ⟨mainLoop_traces key, ?_⟩
  intro envs i a b
  rw [mainLoop_traces, mainLoop_traces, List.getElem?_map, List.getElem?_map,
    List.getElem?_set_ne (by omega), List.getElem?_set_ne (by omega)]

/-- C5: the Content Extractor returns the empty string or at least 100
characters, and the Rewriter is only ever invoked (in one article, hence
in every run) with content of at least 100 characters. -/
theorem extraction_short_circuit :
    (∀ page, getFullArticle page = "" ∨ 100 ≤ (getFullArticle page).length) ∧
    (∀ (key : Option String) (env : ArticleEnv) (c : String),
      (processArticle key env).rewriteArg = some c → 100 ≤ c.length) ∧
    (∀ (key : Option String) (envs : List ArticleEnv) (t : Trace) (c : String),
      t ∈ (mainLoop key envs).2.2 → t.rewriteArg = some c → 100 ≤ c.length) := by
  have h1 : ∀ page, getFullArticle page = "" ∨ 100 ≤ (getFullArticle page).length := by
    intro page
    cases page with
    | none => exact Or.inl rfl
    | some sels =>
      simp only [getFullArticle]
      by_cases h : (joinParas ((extractLoop sels []).take 8)).length < 100
      · exact Or.inl (by simp [h])
      · exact Or.inr (by simp [h]; omega)
  have h2 : ∀ (key : Option String) (env : ArticleEnv) (c : String),
      (processArticle key env).rewriteArg = some c → 100 ≤ c.length := by
    intro key env c h
    simp only [processArticle] at h
    split at h
    · exact absurd h (by simp)
    · next hcond =>
      have hlen : 100 ≤ (getFullArticle env.page).length := by
        simp only [Bool.or_eq_true, decide_eq_true_eq] at hcond
        push_neg at hcond
        omega
      repeat' split at h
      all_goals
        obtain rfl : getFullArticle env.page = c := by simpa using h
      all_goals exact hlen
  refine ⟨h1, h2, ?_⟩
  intro key envs t c ht hr
  rw [mainLoop_traces] at ht
  obtain ⟨e, _, rfl⟩ := List.mem_map.mp ht
  exact h2 key e c hr

set_option maxRecDepth 40000 in
/-- C5 witness: a concrete page extracts to the 7-block body (434
characters), and that is exactly what the Rewriter-call argument is. -/
theorem extraction_short_circuit_witness :
    100 ≤ (joinParas [blkA, blkB, blkC, blkD, blkE, blkF, blkG]).length :=
  extraction_short_circuit.2.1 none envC5
    (joinParas [blkA, blkB, blkC, blkD, blkE, blkF, blkG]) (by decide)

/-- A listing element with a long title and a relative href. -/
def elGood : RawEl := ⟨"a headline long enough", some "/india-news/x"⟩

/-- C7: the fallback scraper returns at most 5 entries, every entry has a
title longer than 10 characters and an absolute "http" link, and all
entries come from the first selector strategy that yielded any results. -/
theorem fallback_scraper_output (page : List (List RawEl)) :
    (scrapeNDTV page).length ≤ 5 ∧
    (∀ a ∈ scrapeNDTV page, 10 < a.title.length ∧ strStartsWith "http" a.link = true) ∧
    (scrapeNDTV page = [] ∨
      ∃ pre sel rest, page = pre ++ sel :: rest ∧
        (∀ s ∈ pre, s.filterMap processEl = []) ∧
        sel.filterMap processEl ≠ [] ∧
        scrapeNDTV page = (sel.filterMap processEl).take 5) := by
  induction page with
  | nil => exact ⟨by simp [scrapeNDTV], by simp [scrapeNDTV], Or.inl rfl⟩
  | cons sel rest ih =>
    by_cases he : (sel.filterMap processEl).isEmpty = true
    · have hrw : scrapeNDTV (sel :: rest) = scrapeNDTV rest := by
        simp only [scrapeNDTV, he, if_true]
      rw [hrw]
      refine ⟨ih.1, ih.2.1, ?_⟩
      rcases ih.2.2 with hnil | ⟨pre, s, r, heq, hpre, hne, hres⟩
      · exact Or.inl hnil
      · refine Or.inr ⟨sel :: pre, s, r, by rw [heq]; rfl, ?_, hne, hres⟩
        intro x hx
        rcases List.mem_cons.mp hx with rfl | hx2
        · exact List.isEmpty_iff.mp he
        · exact hpre x hx2
    · have hrw : scrapeNDTV (sel :: rest) = (sel.filterMap processEl).take 5 := by
        simp only [scrapeNDTV]
        rw [if_neg he]
      rw [hrw]
      refine ⟨?_, ?_, Or.inr ⟨[], sel, rest, rfl, by simp, ?_, rfl⟩⟩
      · exact List.length_take 5 _ ▸ Nat.min_le_left _ _
      · intro a ha
        obtain ⟨e, _, hpe⟩ := List.mem_filterMap.mp (List.mem_of_mem_take ha)
        exact processEl_sound e a hpe
      · intro hA
        exact he (by simp [hA])

/-- C7 witness: one concrete element with a relative link yields an entry
whose title exceeds 10 characters and whose link is absolute. -/
theorem fallback_scraper_output_witness :
    10 < (Article.mk "a headline long enough" "https://www.ndtv.com/india-news/x").title.length ∧
    strStartsWith "http"
      (Article.mk "a headline long enough" "https://www.ndtv.com/india-news/x").link = true :=
  (fallback_scraper_output [[elGood]]).2.1 _ (by decide)

/-- C9: with an empty RSS list the run processes the scraped list
(fallback); when both sources are empty the exit code is 1; when no
article in the run succeeds the exit code is 1. -/
theorem run_exit_conditions (key : Option String) (rss scraped : List ArticleEnv) :
    ((mainModel key [] scraped).2 =
      if scraped.isEmpty then (0, 0, ([] : List Trace)) else mainLoop key scraped) ∧
    (rss = [] → scraped = [] → (mainModel key rss scraped).1 = 1) ∧
    ((mainLoop key (if rss.isEmpty then scraped else rss)).1 = 0 →
      (mainModel key rss scraped).1 = 1) := by
  refine ⟨?_, ?_, ?_⟩
  · by_cases h : scraped.isEmpty
    · simp [mainModel, h]
    · by_cases h2 : (mainLoop key scraped).1 = 0 <;> simp [mainModel, h, h2]
  · intro h1 h2
    subst h1
    subst h2
    rfl
  · intro h
    cases rss with
    | nil =>
      simp only [List.isEmpty_nil, if_true] at h
      cases scraped with
      | nil => rfl
      | cons s ss => simp [mainModel, h]
    | cons r0 rs =>
      simp only [List.isEmpty_cons, Bool.false_eq_true, if_false] at h
      simp [mainModel, h]

/-- C9 witness: both sources empty exits with code 1. -/
theorem run_exit_conditions_witness : (mainModel none [] []).1 = 1 :=
  (run_exit_conditions none [] []).2.1 rfl rfl

/-- C6: the Rewriter fails exactly when the API key is falsy, the content
is under 50 characters, or the response is missing/malformed or under 100
characters; otherwise it returns the response text; and it performs at
most one request per invocation. -/
theorem rewriter_error_characterization (key : Option String) (content : String)
    (resp : Option String) :
    ((∃ t, rewriteWithGemini key content resp = Except.ok t) ↔
      (jsFalsy key = false ∧ 50 ≤ content.length ∧
        ∃ t, resp = some t ∧ 100 ≤ t.length)) ∧
    (∀ t, resp = some t → jsFalsy key = false → 50 ≤ content.length →
      100 ≤ t.length → rewriteWithGemini key content resp = Except.ok t) ∧
    rewriteRequestCount key content ≤ 1 := by
  have hret : ∀ t, resp = some t → jsFalsy key = false → 50 ≤ content.length →
      100 ≤ t.length → rewriteWithGemini key content resp = Except.ok t := by
    intro t ht hk h50 h100
    subst ht
    unfold rewriteWithGemini
    rw [if_neg (by simp [hk])]
    have hne : content ≠ "" := by
      intro hrfl
      rw [hrfl] at h50
      have : ("" : String).length = 0 := rfl
      omega
    rw [if_neg (by simp [hne]; omega)]
    simp only
    rw [if_neg (by omega)]
  refine ⟨⟨?_, ?_⟩, hret, ?_⟩
  · rintro ⟨t, ht⟩
    unfold rewriteWithGemini at ht
    cases hk : jsFalsy key with
    | true => rw [if_pos (by simp [hk])] at ht; simp at ht
    | false =>
      rw [if_neg (by simp [hk])] at ht
      split at ht
      · simp at ht
      · next hcond =>
        have h50 : 50 ≤ content.length := by
          simp only [Bool.or_eq_true, decide_eq_true_eq, not_or] at hcond
          omega
        cases hresp : resp with
        | none => rw [hresp] at ht; simp at ht
        | some u =>
          rw [hresp] at ht
          simp only at ht
          split at ht
          · simp at ht
          · next hlen =>
            refine ⟨rfl, h50, u, rfl, by omega⟩
  · rintro ⟨hk, h50, t, hresp, h100⟩
    exact ⟨t, hret t hresp hk h50 h100⟩
  · unfold rewriteRequestCount
    split
    · omega
    · split <;> omega

/-- C6 witness: a valid key, 60-character content and 120-character
response produce exactly one request's rewritten text. -/
theorem rewriter_error_characterization_witness :
    rewriteWithGemini (some "k") blkA (some (blkA ++ blkB)) = Except.ok (blkA ++ blkB) :=
  (rewriter_error_characterization (some "k") blkA (some (blkA ++ blkB))).2.1
    (blkA ++ blkB) rfl rfl (by decide) (by decide)

/-- An environment in which every stage of one article succeeds. -/
def envOK : ArticleEnv :=
  ⟨"Original Title Here", some page0, some (blkA ++ blkB), some "A Nice Fresh Headline",
    ⟨some [ImgPart.inlinePart (some "imgdata")], none, some "https://signed.example/u.png"⟩,
    some true⟩

/-- C1: the publish call of an article happens exactly when extraction
produced at least 100 characters and body rewriting, title rewriting and
image generation all succeeded; and any published payload is assembled
from those stage outputs, so a failed stage persists nothing. -/
theorem publish_gated_on_all_stages (key : Option String) (env : ArticleEnv) :
    (((processArticle key env).publishArg).isSome = true ↔
      (100 ≤ (getFullArticle env.page).length ∧
        ∃ summary newTitle,
          rewriteWithGemini key (getFullArticle env.page) env.rewriteResp = Except.ok summary ∧
          rewriteTitle key env.title env.titleResp = Except.ok newTitle ∧
          ∃ url, generateImage key summary (slugifyJS newTitle) env.img = Except.ok url)) ∧
    (∀ out, (processArticle key env).publishArg = some out →
      ∃ summary newTitle url,
        rewriteWithGemini key (getFullArticle env.page) env.rewriteResp = Except.ok summary ∧
        rewriteTitle key env.title env.titleResp = Except.ok newTitle ∧
        generateImage key summary (slugifyJS newTitle) env.img = Except.ok url ∧
        out = ⟨newTitle, summary, url⟩) := by
  constructor
  · constructor
    · intro hSome
      simp only [processArticle] at hSome
      split at hSome
      · simp at hSome
      · next hcond =>
        have hlen : 100 ≤ (getFullArticle env.page).length := by
          simp only [Bool.or_eq_true, decide_eq_true_eq, not_or] at hcond
          omega
        refine ⟨hlen, ?_⟩
        split at hSome
        · simp at hSome
        · next summary hrw =>
          split at hSome
          · simp at hSome
          · next newTitle hrt =>
            split at hSome
            · simp at hSome
            · next url himg =>
              exact ⟨summary, newTitle, hrw, hrt, url, himg⟩
    · rintro ⟨hlen, summary, newTitle, hrw, hrt, url, himg⟩
      simp only [processArticle]
      have hne : getFullArticle env.page ≠ "" := by
        intro hrfl
        rw [hrfl] at hlen
        have : ("" : String).length = 0 := rfl
        omega
      rw [if_neg (by simp [hne]; omega)]
      simp only [hrw, hrt, himg]
      split <;> rfl
  · intro out hOut
    simp only [processArticle] at hOut
    split at hOut
    · simp at hOut
    · split at hOut
      · simp at hOut
      · next summary hrw =>
        split at hOut
        · simp at hOut
        · next newTitle hrt =>
          split at hOut
          · simp at hOut
          · next url himg =>
            split at hOut
            all_goals
              exact ⟨summary, newTitle, url, hrw, hrt, himg, by simpa using hOut.symm⟩

set_option maxRecDepth 40000 in
/-- C1 witness: in a concrete environment where every stage succeeds, the
publish call is made, and all three stage results exist. -/
theorem publish_gated_on_all_stages_witness :
    100 ≤ (getFullArticle envOK.page).length ∧
    ∃ summary newTitle,
      rewriteWithGemini (some "k") (getFullArticle envOK.page) envOK.rewriteResp =
        Except.ok summary ∧
      rewriteTitle (some "k") envOK.title envOK.titleResp = Except.ok newTitle ∧
      ∃ url, generateImage (some "k") summary (slugifyJS newTitle) envOK.img =
        Except.ok url :=
  (publish_gated_on_all_stages (some "k") envOK).1.mp (by decide)

/-- C2: the slug the endpoint persists is a function of the title and the
millisecond timestamp only, and one endpoint call preserves pairwise
distinctness of slugs in the table — a second publish of the same title in
the same millisecond is rejected by the unique index (500) and persists
nothing, so no two persisted records ever share a slug. -/
theorem slug_deterministic_and_unique :
    (∀ (t₁ t₂ : String) (n₁ n₂ : Nat), t₁ = t₂ → n₁ = n₂ →
      generateSlug t₁ n₁ = generateSlug t₂ n₂) ∧
    (∀ (db : List DBRecord) (body : ReqBody) (now : Nat),
      slugsDistinct db → slugsDistinct (publishHandler db body now).db) := by
  constructor
  · intro t₁ t₂ n₁ n₂ h1 h2
    rw [h1, h2]
  · intro db body now hdb
    rcases ht : body.title with _ | t
    · simpa [publishHandler, ht] using hdb
    · rcases hx : body.text with _ | x
      · simpa [publishHandler, ht, hx] using hdb
      · simp only [publishHandler, ht, hx]
        by_cases h0 : (t = "" || x = "") = true
        · simpa [h0] using hdb
        · rw [if_neg h0]
          cases hins : insertArticle db (mkRecord t x body.image_link now) with
          | none => simpa [hins] using hdb
          | some db2 =>
            simp only [hins]
            unfold insertArticle at hins
            by_cases hany : (db.any fun y => y.slug = (mkRecord t x body.image_link now).slug) = true
            · rw [if_pos hany] at hins
              exact absurd hins (by simp)
            · rw [if_neg hany] at hins
              obtain rfl : db ++ [mkRecord t x body.image_link now] = db2 := by
                simpa using hins
              unfold slugsDistinct at hdb ⊢
              rw [List.pairwise_append]
              refine ⟨hdb, by simp, ?_⟩
              intro a haa b hbb
              have hb : b = mkRecord t x body.image_link now := by simpa using hbb
              subst hb
              intro hEq
              exact hany (List.any_eq_true.mpr ⟨a, haa, by simp [hEq]⟩)

/-- C2 witness: publishing the same title twice at the same millisecond
still leaves the table with pairwise distinct slugs (the second insert is
refused). -/
theorem slug_deterministic_and_unique_witness :
    slugsDistinct ((publishHandler
      ((publishHandler [] ⟨some "Hello World", some "body text", none⟩ 7).db)
      ⟨some "Hello World", some "body text", none⟩ 7).db) :=
  slug_deterministic_and_unique.2 _ ⟨some "Hello World", some "body text", none⟩ 7
    (slug_deterministic_and_unique.2 [] ⟨some "Hello World", some "body text", none⟩ 7
      List.Pairwise.nil)

/-- C10: the slug equals the normalized title, a hyphen, and the decimal
millisecond timestamp; it is never empty, always ends in a digit, and for
a title with no alphanumeric characters it begins with a hyphen (the
trailing `trim` removes whitespace only, never hyphens). -/
theorem publish_slug_shape (title : String) (ms : Nat) :
    generateSlug title ms = normalizeTitle title ++ "-" ++ natToString ms ∧
    generateSlug title ms ≠ "" ∧
    (∃ c, (generateSlug title ms).data.getLast? = some c ∧ c.isDigit = true) ∧
    ((∀ ch ∈ title.data, isLowerAlnum (Char.toLower ch) = false) →
      (generateSlug title ms).data.head? = some '-') := by
  have hdata : (generateSlug title ms).data =
      (normalizeTitle title).data ++ '-' :: natDigits ms := by
    unfold generateSlug natToString
    rw [String.data_append, String.data_append, List.append_assoc]
    rfl
  refine ⟨rfl, ?_, ?_, ?_⟩
  · intro h
    have hnil : (generateSlug title ms).data = [] := by rw [h]
    rw [hdata] at hnil
    simp at hnil
  · obtain ⟨d, hd, hlast⟩ := natDigits_getLast ms
    refine ⟨digitChar d, ?_, digitChar_isDigit d hd⟩
    rw [hdata]
    exact getLast?_append_right _ _ _
      (getLast?_append_right ['-'] (natDigits ms) _ hlast)
  · intro h
    have hall := normalizeTitle_all_hyphen title h
    rw [hdata]
    cases hnt : (normalizeTitle title).data with
    | nil => rfl
    | cons c0 cs =>
      have hc0 : c0 = '-' := hall c0 (by rw [hnt]; exact List.mem_cons_self _ _)
      simp [hc0]

/-- C10 witness: a title with no alphanumeric characters produces a slug
that starts with a hyphen. -/
theorem publish_slug_shape_witness :
    (generateSlug "!!!" 7).data.head? = some '-' :=
  (publish_slug_shape "!!!" 7).2.2.2 (by decide)

/-- C8 counterexample: a request in which both `title` and `text` are
present (no field is missing) but `title` is the empty string is still
answered with status 400, so "400 exactly when a required field is
missing" fails as stated. -/
theorem publish_400_empty_title_cex :
    ((⟨some "", some "hello body", none⟩ : ReqBody).title ≠ none) ∧
    ((⟨some "", some "hello body", none⟩ : ReqBody).text ≠ none) ∧
    (publishHandler [] ⟨some "", some "hello body", none⟩ 5).status = 400 := by
  decide

/-- C8 (amended): 400 exactly when `title` or `text` is missing or empty
(JS falsiness); for present nonempty fields, a failed insert yields 500
with the table unchanged and a successful insert yields 200 with
`success: true` and the persisted record; `image_link` never influences
the 400 check. -/
theorem publish_status_characterization (db : List DBRecord) (body : ReqBody) (now : Nat) :
    ((publishHandler db body now).status = 400 ↔
      (jsFalsy body.title = true ∨ jsFalsy body.text = true)) ∧
    (∀ t x, body.title = some t → body.text = some x → t ≠ "" → x ≠ "" →
      ((insertArticle db (mkRecord t x body.image_link now) = none →
          publishHandler db body now = ⟨500, false, none, db⟩) ∧
        (∀ db2, insertArticle db (mkRecord t x body.image_link now) = some db2 →
          publishHandler db body now =
            ⟨200, true, some (mkRecord t x body.image_link now), db2⟩))) := by
  constructor
  · rcases ht : body.title with _ | t
    · simp [publishHandler, ht, jsFalsy]
    · rcases hx : body.text with _ | x
      · simp [publishHandler, ht, hx, jsFalsy]
      · simp only [publishHandler, ht, hx, jsFalsy]
        by_cases h0 : (t = "" || x = "") = true
        · rw [if_pos h0]
          exact ⟨fun _ => by simpa using h0, fun _ => rfl⟩
        · rw [if_neg h0]
          cases hins : insertArticle db (mkRecord t x body.image_link now) with
          | none =>
            simp only [hins]
            exact ⟨fun h => absurd h (by simp), fun hd => absurd hd (by simpa using h0)⟩
          | some db2 =>
            simp only [hins]
            exact ⟨fun h => absurd h (by simp), fun hd => absurd hd (by simpa using h0)⟩
  · intro t x ht hx htne hxne
    simp only [publishHandler, ht, hx]
    have h0 : ¬((t = "" || x = "") = true) := by simp [htne, hxne]
    rw [if_neg h0]
    constructor
    · intro hins
      simp [hins]
    · intro db2 hins
      simp [hins]

/-- C8 witness: a valid request on an empty table is persisted and
answered with 200 and the record. -/
theorem publish_status_characterization_witness :
    publishHandler [] ⟨some "Hello Again", some "body text", none⟩ 3 =
      ⟨200, true, some (mkRecord "Hello Again" "body text" none 3),
        [] ++ [mkRecord "Hello Again" "body text" none 3]⟩ :=
  ((publish_status_characterization [] ⟨some "Hello Again", some "body text", none⟩ 3).2
    "Hello Again" "body text" rfl rfl (by decide) (by decide)).2
    ([] ++ [mkRecord "Hello Again" "body text" none 3]) (by decide)

set_option maxRecDepth 40000 in
/-- C4 counterexample: with a first selector matching 3 qualifying blocks
and a second matching 4, the second selector is the first to yield more
than three qualifying blocks, yet the returned body text also contains
`blkA` — a block only the first selector matched — so the body does not
consist only of blocks of that selector. -/
theorem extractor_mixes_selectors_cex :
    (([blkA, blkB, blkC].filter qualifies).length ≤ 3) ∧
    (3 < ([blkD, blkE, blkF, blkG].filter qualifies).length) ∧
    extractLoop page0 [] = [blkA, blkB, blkC, blkD, blkE, blkF, blkG] ∧
    blkA ∉ [blkD, blkE, blkF, blkG] ∧
    getFullArticle (some page0) = joinParas [blkA, blkB, blkC, blkD, blkE, blkF, blkG] := by
  decide

/-- C4 (amended): the extractor accumulates qualifying blocks across the
selectors in priority order into one shared list, stopping after the first
selector that pushes the cumulative count above three (not the first
selector that alone yields more than three); the body is the first 8
accumulated blocks joined, or empty when under 100 characters. -/
theorem extractor_cumulative (sels : List (List String)) :
    ∃ k, k ≤ sels.length ∧
      extractLoop sels [] = accBlocks sels k ∧
      (∀ j, j < k → (accBlocks sels j).length ≤ 3) ∧
      (k < sels.length → 3 < (accBlocks sels k).length) ∧
      (getFullArticle (some sels) = "" ∨
        getFullArticle (some sels) = joinParas ((accBlocks sels k).take 8)) := by
  obtain ⟨k, hk, heq, hbound, hstop⟩ := extractLoop_spec sels [] (by simp)
  have heq2 : extractLoop sels [] = accBlocks sels k := by simpa using heq
  refine ⟨k, hk, heq2, ?_, ?_, ?_⟩
  · intro j hj
    simpa using hbound j hj
  · intro h
    simpa using hstop h
  · simp only [getFullArticle]
    rw [heq2]
    by_cases h : (joinParas ((accBlocks sels k).take 8)).length < 100
    · exact Or.inl (by rw [if_pos h])
    · exact Or.inr (by rw [if_neg h])

/-- C4 witness: the amended characterization instantiated at the concrete
two-selector page. -/
theorem extractor_cumulative_witness :
    ∃ k, k ≤ page0.length ∧
      extractLoop page0 [] = accBlocks page0 k ∧
      (∀ j, j < k → (accBlocks page0 j).length ≤ 3) ∧
      (k < page0.length → 3 < (accBlocks page0 k).length) ∧
      (getFullArticle (some page0) = "" ∨
        getFullArticle (some page0) = joinParas ((accBlocks page0 k).take 8)) :=
  extractor_cumulative page0

end AutoTribune
